import Mathlib

set_option maxRecDepth 10000

/-!
Shallow embedding of the audio pipeline of the r3f virtual-girlfriend backend
(`src/index.js`, ElevenLabs service module), together with theorems checking
the natural-language specification against it.

Strings are modelled as `List Char`, file contents as `List Nat` (byte
values), JavaScript numbers as `ℚ` (the computations under study only use
values on which binary floating point and exact rational arithmetic agree to
well below the tolerances of the claims), and absent/`null` values as
`Option`.
-/

namespace VGB

/-- ASCII whitespace characters, the fragment of the JavaScript `\s` class and
`String.prototype.trim` set that can occur in the inputs modelled here. -/
def isJsWs (c : Char) : Bool :=
  c = ' ' || c = '\t' || c = '\n' || c = '\r' || c = '\x0b' || c = '\x0c'

/-- JavaScript `String.prototype.trim`: drop leading and trailing whitespace. -/
def jsTrim (s : List Char) : List Char :=
  ((s.dropWhile isJsWs).reverse.dropWhile isJsWs).reverse

/-- JavaScript `String.prototype.toLowerCase` on the character sets in play. -/
def jsLower (s : List Char) : List Char :=
  s.map Char.toLower

/-- JavaScript `String.prototype.includes`: substring containment. -/
def includes (hay needle : List Char) : Bool :=
  hay.tails.any fun t => needle.isPrefixOf t

/-- The characters of `".wav"`. -/
def wavSuffix : List Char := ['.', 'w', 'a', 'v']

/-- The characters of `".mp3"`. -/
def mp3Suffix : List Char := ['.', 'm', 'p', '3']

/-- The regex test `/\.wav$/i`: do the last four characters, lowercased,
spell `".wav"`? -/
def endsWavCI (s : List Char) : Bool :=
  wavSuffix.isPrefixOf ((jsLower s).reverse.take 4).reverse

/-- `s.replace(/\.wav$/i, '.mp3')`: if the string ends with `".wav"`
case-insensitively, replace those four characters with `".mp3"`. -/
def replaceWavByMp3 (s : List Char) : List Char :=
  if endsWavCI s then
    s.take (s.length - 4) ++ mp3Suffix
  else
    s

/-- Pronunciation-irrelevant remainder of the lip-sync metadata object:
fields other than `soundFile` produced by the pipeline. -/
structure LipsyncMetaRest where
  duration : ℚ
  isFallback : Bool
  durationSource : List Char
  textLength : Nat
  deriving Repr, DecidableEq

/-- The `metadata` object of a lip-sync track. -/
structure LipsyncMetadata where
  soundFile : Option (List Char)
  rest : LipsyncMetaRest
  deriving Repr, DecidableEq

/-- A mouth cue `{start, end, value}` (field `end` is a Lean keyword, so the
source's `end` is called `stop` here). -/
structure MouthCue where
  start : ℚ
  stop : ℚ
  value : List Char
  deriving Repr, DecidableEq

/-- A lip-sync track: `{metadata, mouthCues}`; `metadata` may be absent. -/
structure LipsyncData where
  metadata : Option LipsyncMetadata
  mouthCues : List MouthCue
  deriving Repr, DecidableEq

/-- `AudioErrorHandler.normalizeLipsyncMetadata`: `null`/`undefined` input and
input without a `metadata` field are returned unchanged; otherwise a trailing
`.wav` (case-insensitive) in `metadata.soundFile` is rewritten to `.mp3`.
A missing `soundFile` (and the falsy empty string, for which the rewrite is
the identity anyway) is left untouched. -/
def normalizeLipsyncMetadata (d : Option LipsyncData) : Option LipsyncData :=
  match d with
  | none => none
  | some t =>
    match t.metadata with
    | none => some t
    | some m =>
      some { t with metadata := some { m with soundFile := m.soundFile.map replaceWavByMp3 } }

/-! ### Duration estimation and fallback lip-sync synthesis
(`AudioErrorHandler.createEnhancedFallbackLipSync`) -/

/-- JavaScript `parseFloat(x.toFixed(2))` on the non-negative values arising
here: round to two decimal places, half away from zero. -/
def jsRound2 (q : ℚ) : ℚ :=
  (⌊q * 100 + 1 / 2⌋ : ℚ) / 100

/-- Number of segments of `text.split(/\s+/)` is one more than the number of
maximal whitespace runs; this counts the runs (the Boolean argument records
whether the previous character was whitespace). -/
def wsRunsAux : Bool → List Char → Nat
  | _, [] => 0
  | inWs, c :: r =>
    if isJsWs c then
      if inWs then wsRunsAux true r else wsRunsAux true r + 1
    else wsRunsAux false r

/-- `text.split(/\s+/).length`. -/
def jsWordCount (s : List Char) : Nat :=
  wsRunsAux false s + 1

/-- The three values `durationSource` can take in
`createEnhancedFallbackLipSync`. -/
inductive DurationSource
  | default
  | fileSizeEstimation
  | textLengthEstimation
  deriving Repr, DecidableEq

/-- The string stored in the `durationSource` metadata field. -/
def DurationSource.name : DurationSource → List Char
  | .default => "default".toList
  | .fileSizeEstimation => "file_size_estimation".toList
  | .textLengthEstimation => "text_length_estimation".toList

/-- `Math.max(1.0, Math.min(15.0, q))`. -/
def clamp115 (q : ℚ) : ℚ :=
  max 1 (min 15 q)

/-- Result of `validateAudioFile` on the duration-hint MP3 path: existence
flag and stat size. -/
structure Mp3Stat where
  present : Bool
  size : Nat
  deriving Repr, DecidableEq

/-- The duration-estimation phase of `createEnhancedFallbackLipSync`:
`estimatedDuration` starts at `1.0` with source `"default"`; a supplied MP3
path whose file exists with non-zero size yields the file-size estimate;
otherwise non-empty text yields the word-count estimate at 150 words/minute
(`wordsPerSecond = 150 / 60`). -/
def estimateDuration (mp3 : Option Mp3Stat) (text : List Char) : ℚ × DurationSource :=
  let base : ℚ × DurationSource :=
    match mp3 with
    | some st =>
      if st.present ∧ 0 < st.size then
        (clamp115 ((st.size : ℚ) / 32000), .fileSizeEstimation)
      else (1, .default)
    | none => (1, .default)
  if base.2 = .default ∧ 0 < text.length then
    (clamp115 ((jsWordCount text : ℚ) / (150 / 60)), .textLengthEstimation)
  else base

/-- `cueInterval = 0.2`: change mouth shape every 200 ms. -/
def cueInterval : ℚ := 1 / 5

/-- `mouthShapes = ["A", "E", "I", "O", "U", "M", "B", "P"]`. -/
def mouthShapes : List (List Char) :=
  ["A".toList, "E".toList, "I".toList, "O".toList, "U".toList,
   "M".toList, "B".toList, "P".toList]

/-- The cue-generation loop
`for (time = 0; time < dur; time += cueInterval)`, fuelled; `rand k` models
the `Math.floor(Math.random() * mouthShapes.length)` draw of iteration `k`. -/
def genCuesAux (rand : Nat → Nat) (dur : ℚ) : Nat → Nat → ℚ → List MouthCue
  | 0, _, _ => []
  | fuel + 1, k, time =>
    if time < dur then
      { start := jsRound2 time,
        stop := jsRound2 (min (time + cueInterval) dur),
        value := mouthShapes.getD (rand k % 8) "A".toList }
        :: genCuesAux rand dur fuel (k + 1) (time + cueInterval)
    else []

/-- The cue the loop pushes on iteration `i`: the loop variable `time` equals
`i · 0.2` there. -/
def cueN (rand : Nat → Nat) (dur : ℚ) (i : Nat) : MouthCue :=
  { start := jsRound2 ((i : ℚ) / 5),
    stop := jsRound2 (min (((i : ℚ) + 1) / 5) dur),
    value := mouthShapes.getD (rand i % 8) "A".toList }

/-- Number of iterations the cue loop performs: `⌈5·dur⌉` (for the durations
at hand, which are positive). -/
def numCues (dur : ℚ) : Nat :=
  (⌈(5 : ℚ) * dur⌉).toNat

/-- Fuel sufficient for the cue loop: one more than the iteration count. -/
def cueFuel (dur : ℚ) : Nat :=
  numCues dur + 1

/-- `` `message_${i}.mp3` ``. -/
def messageSoundFile (i : Nat) : List Char :=
  "message_".toList ++ Nat.toDigits 10 i ++ ".mp3".toList

/-- `AudioErrorHandler.createEnhancedFallbackLipSync` (the `generatedAt`
timestamp field is omitted; no claim mentions it). -/
def createEnhancedFallbackLipSync (rand : Nat → Nat) (messageIndex : Nat)
    (text : List Char) (mp3 : Option Mp3Stat) : LipsyncData :=
  let ed := estimateDuration mp3 text
  { metadata := some
      { soundFile := some (messageSoundFile messageIndex),
        rest :=
          { duration := jsRound2 ed.1,
            isFallback := true,
            durationSource := ed.2.name,
            textLength := text.length } },
    mouthCues := genCuesAux rand ed.1 (cueFuel ed.1) 0 0 }

/-! ### File views, MP3 format validation, base64 encoding -/

/-- View of one file as the pipeline observes it: stat metadata
(`validateAudioFile`), the bytes `fs.readFile` returns, and the outcome of the
`ensureFileReady` write-visibility wait. -/
structure AudioFile where
  present : Bool
  readable : Bool
  statSize : Nat
  content : List Nat
  readySuccess : Bool
  readySize : Nat
  deriving Repr, DecidableEq

/-- `validateMp3FileForProcessing`, projected to its `isValid` verdict.
Mirrors the branch order of the source: existence, readability, non-empty,
128-byte minimum, header read, ID3v2 / frame-sync / offset frame-sync header
detection, then the 1024-byte `minAudioSize` content threshold. The
probably-silent content scan (`uniqueBytes` over a 1 KiB sample) only sets a
non-fatal `contentCheck` flag and cannot make `isValid` false. -/
def validateMp3FileForProcessing (f : AudioFile) : Bool :=
  if ¬ f.present then false
  else if ¬ f.readable then false
  else if f.statSize = 0 then false
  else if f.statSize < 128 then false
  else
    let header := f.content.take (min 4096 f.statSize)
    let bytesRead := header.length
    if bytesRead = 0 then false
    else
      let firstBytes := header.take (min 4 bytesRead)
      let id3 : Bool := 3 ≤ bytesRead
        ∧ firstBytes.getD 0 0 = 0x49 ∧ firstBytes.getD 1 0 = 0x44 ∧ firstBytes.getD 2 0 = 0x33
      let frameSync : Bool := 2 ≤ bytesRead
        ∧ firstBytes.getD 0 0 = 0xFF ∧ firstBytes.getD 1 0 &&& 0xE0 = 0xE0
      let offsetSync : Bool := (List.range (min (bytesRead - 1) 1024)).any fun i =>
        header.getD i 0 = 0xFF ∧ header.getD (i + 1) 0 &&& 0xE0 = 0xE0
      if ¬ (id3 ∨ frameSync ∨ offsetSync) then false
      else if f.statSize < 1024 then false
      else true

/-- The base64 alphabet. -/
def base64Alphabet : List Char :=
  "ABCDEFGHIJKLMNOPQRSTUVWXYZabcdefghijklmnopqrstuvwxyz0123456789+/".toList

/-- Digit of the base64 alphabet. -/
def b64c (n : Nat) : Char :=
  base64Alphabet.getD n 'A'

/-- `Buffer.prototype.toString("base64")`: standard base64 with `=` padding. -/
def base64Chars : List Nat → List Char
  | [] => []
  | [a] => [b64c (a / 4), b64c (a % 4 * 16), '=', '=']
  | [a, b] => [b64c (a / 4), b64c (a % 4 * 16 + b / 16), b64c (b % 16 * 4), '=']
  | a :: b :: c :: rest =>
    b64c (a / 4) :: b64c (a % 4 * 16 + b / 16) :: b64c (b % 16 * 4 + c / 64)
      :: b64c (c % 64) :: base64Chars rest

/-- `audioFileToBase64`, as a function of the path kind (whether the
normalized path ends in `.mp3` case-insensitively) and the observed file.
Every failure branch — and the surrounding `try`/`catch` — returns the empty
string; the size-mismatch check (`data.length` differing from both the stat
size and the readiness size) and the base64-length sanity check only log. -/
def audioFileToBase64 (isMp3Path : Bool) (f : AudioFile) : List Char :=
  if ¬ f.present then []
  else if ¬ f.readable then []
  else if f.statSize = 0 then []
  else if isMp3Path ∧ ¬ validateMp3FileForProcessing f then []
  else if ¬ f.readySuccess then []
  else
    let data := f.content
    if data.length = 0 then []
    else
      let base64Data := base64Chars data
      if base64Data.length = 0 then [] else base64Data

/-! ### Write-visibility polling (`waitForFileReady`) -/

/-- The polling loop of `waitForFileReady` over the sequence of stat
observations made before the deadline (`none` = `fs.stat` threw, the file not
existing yet), with the `lastSize` and `stableCount` accumulators of the
source. -/
def waitStep : List (Option Nat) → Nat → Nat → Bool
  | [], _, _ => false
  | poll :: rest, lastSize, stableCount =>
    match poll with
    | none => waitStep rest lastSize stableCount
    | some size =>
      if 0 < size then
        if size = lastSize then
          if 3 ≤ stableCount + 1 then true
          else waitStep rest lastSize (stableCount + 1)
        else waitStep rest size 0
      else waitStep rest lastSize stableCount

/-- `waitForFileReady` on the polls performed before the `maxWaitMs`
deadline: `lastSize` starts at `0`, `stableCount` at `0`. -/
def waitForFileReady (polls : List (Option Nat)) : Bool :=
  waitStep polls 0 0

/-- The successful non-zero size observations among the polls (a failed stat
or an empty file leaves both accumulators untouched in the source). -/
def positiveSizes (polls : List (Option Nat)) : List Nat :=
  (polls.filterMap id).filter fun s => 0 < s

/-- Modelled from the spec: readiness means the size was observed non-zero
and then remained unchanged across three consecutive polls — four equal
consecutive non-zero observations. -/
def hasStableRun : List Nat → Bool
  | a :: b :: c :: d :: t =>
    if a = b ∧ a = c ∧ a = d then true else hasStableRun (b :: c :: d :: t)
  | _ => false

/-! ### ElevenLabs error classification and synthesis entry
(`ElevenLabsService.handleElevenLabsError`, `ElevenLabsService.generateAudio`,
`AudioErrorHandler.isRetryableError`, `AudioErrorHandler.logAudioError`) -/

/-- The error codes appearing in the service and the error handler. -/
inductive ErrCode
  | MISSING_API_KEY
  | MISSING_VOICE_ID
  | EMPTY_TEXT
  | TEXT_TOO_LONG
  | INVALID_API_KEY
  | INVALID_VOICE_ID
  | RATE_LIMITED
  | QUOTA_EXCEEDED
  | NETWORK_ERROR
  | SERVER_ERROR
  | UNKNOWN_ERROR
  | TIMEOUT_ERROR
  | EMPTY_AUDIO_FILE
  | FILE_VERIFICATION_FAILED
  deriving Repr, DecidableEq

/-- A classified error object: its `errorCode` and its `retryable` field
(absent in the source object modelled as `false`). -/
structure ClassifiedError where
  errorCode : ErrCode
  retryable : Bool
  deriving Repr, DecidableEq

/-- `ElevenLabsService.handleElevenLabsError`, as a function of
`error.message` (`none` = no message): lowercases the message and matches the
substring patterns in source order; only the rate-limit, network and server
branches attach `retryable: true`. -/
def handleElevenLabsError (msg : Option (List Char)) : ClassifiedError :=
  match msg with
  | none => ⟨.UNKNOWN_ERROR, false⟩
  | some m =>
    let message := jsLower m
    if includes message "unauthorized".toList ∨ includes message "401".toList then
      ⟨.INVALID_API_KEY, false⟩
    else if includes message "not found".toList ∨ includes message "404".toList then
      ⟨.INVALID_VOICE_ID, false⟩
    else if includes message "rate limit".toList ∨ includes message "429".toList then
      ⟨.RATE_LIMITED, true⟩
    else if includes message "quota".toList ∨ includes message "billing".toList
        ∨ includes message "402".toList then
      ⟨.QUOTA_EXCEEDED, false⟩
    else if includes message "network".toList ∨ includes message "timeout".toList
        ∨ includes message "enotfound".toList ∨ includes message "econnrefused".toList
        ∨ includes message "econnreset".toList then
      ⟨.NETWORK_ERROR, true⟩
    else if includes message "500".toList ∨ includes message "502".toList
        ∨ includes message "503".toList ∨ includes message "504".toList then
      ⟨.SERVER_ERROR, true⟩
    else ⟨.UNKNOWN_ERROR, false⟩

/-- `AudioErrorHandler.isRetryableError`: membership in
`["RATE_LIMITED", "NETWORK_ERROR", "TIMEOUT_ERROR"]`. -/
def isRetryableError (code : ErrCode) : Bool :=
  code = .RATE_LIMITED ∨ code = .NETWORK_ERROR ∨ code = .TIMEOUT_ERROR

/-- The `retryable` field of the ErrorRecord built by
`AudioErrorHandler.logAudioError`:
`error.retryable || this.isRetryableError(error.errorCode)`. -/
def errorRecordRetryable (e : ClassifiedError) : Bool :=
  e.retryable || isRetryableError e.errorCode

/-- Configuration and collaborator behaviour visible to
`ElevenLabsService.generateAudio`: the two env-derived credentials (`""`
models an unset variable, which is falsy like `undefined`), whether
`voice.textToSpeech` resolves, the rejection message when it does not, and
the stat of the output file afterwards (`none` = `fs.stat` threw). -/
structure TtsEnv where
  apiKey : List Char
  voiceId : List Char
  ttsSucceeds : Bool
  ttsErrorMessage : Option (List Char)
  statAfterTts : Option Nat

/-- Outcome of `generateAudio`: the `success` flag and the `errorCode` field
of the returned object (absent on success). -/
structure GenResult where
  success : Bool
  errorCode : Option ErrCode
  deriving Repr, DecidableEq

/-- `ElevenLabsService.generateAudio`. The second component records whether
the collaborator `voice.textToSpeech` was invoked. Precondition order is the
source's: API key, voice id, `!text || text.trim().length === 0`, then the
5000-character cap. -/
def generateAudio (env : TtsEnv) (text : List Char) : GenResult × Bool :=
  if env.apiKey.length = 0 then (⟨false, some .MISSING_API_KEY⟩, false)
  else if env.voiceId.length = 0 then (⟨false, some .MISSING_VOICE_ID⟩, false)
  else if (jsTrim text).length = 0 then (⟨false, some .EMPTY_TEXT⟩, false)
  else if 5000 < text.length then (⟨false, some .TEXT_TOO_LONG⟩, false)
  else if env.ttsSucceeds then
    match env.statAfterTts with
    | none => (⟨false, some .FILE_VERIFICATION_FAILED⟩, true)
    | some size =>
      if size = 0 then (⟨false, some .EMPTY_AUDIO_FILE⟩, true)
      else (⟨true, none⟩, true)
  else (⟨false, some (handleElevenLabsError env.ttsErrorMessage).errorCode⟩, true)

/-! ### Helper lemmas -/

theorem jsRound2_mono {a b : ℚ} (h : a ≤ b) : jsRound2 a ≤ jsRound2 b := by
  unfold jsRound2
  have hf : ⌊a * 100 + 1 / 2⌋ ≤ ⌊b * 100 + 1 / 2⌋ :=
    Int.floor_le_floor (by linarith)
  have : ((⌊a * 100 + 1 / 2⌋ : ℤ) : ℚ) ≤ ((⌊b * 100 + 1 / 2⌋ : ℤ) : ℚ) :=
    Int.cast_le.mpr hf
  linarith

/-- Two-decimal rounding is exact on multiples of `0.2`. -/
theorem jsRound2_natDiv5 (i : ℕ) : jsRound2 ((i : ℚ) / 5) = (i : ℚ) / 5 := by
  unfold jsRound2
  have h1 : (i : ℚ) / 5 * 100 + 1 / 2 = ((20 * (i : ℤ) : ℤ) : ℚ) + 1 / 2 := by
    push_cast
    ring
  rw [h1, Int.floor_int_add]
  have h2 : ⌊(1 : ℚ) / 2⌋ = 0 := by norm_num
  rw [h2]
  push_cast
  ring

/-- The closed form of the cue loop: starting iteration `i` (at
`time = i · 0.2`) with enough fuel produces exactly the cues
`cueN i, …, cueN (numCues dur - 1)`. -/
theorem genCuesAux_closedForm (rand : Nat → Nat) (dur : ℚ) :
    ∀ (fuel i : ℕ), 5 * dur ≤ (i : ℚ) + (fuel : ℚ) →
      genCuesAux rand dur fuel i ((i : ℚ) / 5)
        = (List.range (numCues dur - i)).map fun j => cueN rand dur (i + j) := by
  intro fuel
  induction fuel with
  | zero =>
    intro i h
    have hle : (⌈(5 : ℚ) * dur⌉ : ℤ) ≤ (i : ℤ) := by
      rw [Int.ceil_le]
      push_cast
      simpa using h
    have : numCues dur ≤ i := by
      have := Int.toNat_le.mpr hle
      simpa [numCues] using this
    simp [genCuesAux, Nat.sub_eq_zero_of_le this]
  | succ fuel ih =>
    intro i h
    by_cases hlt : (i : ℚ) / 5 < dur
    · have hiceil : (i : ℤ) < ⌈(5 : ℚ) * dur⌉ := by
        rw [Int.lt_ceil]
        push_cast
        linarith
      have hceil_pos : 0 < ⌈(5 : ℚ) * dur⌉ := lt_of_le_of_lt (by positivity) hiceil
      have hin : i < numCues dur := by
        have : ((i : ℤ)).toNat < (⌈(5 : ℚ) * dur⌉).toNat :=
          (Int.toNat_lt_toNat hceil_pos).mpr hiceil
        simpa [numCues] using this
      have hstep : (i : ℚ) / 5 + cueInterval = (((i + 1 : ℕ)) : ℚ) / 5 := by
        unfold cueInterval
        push_cast
        ring
      have hrec := ih (i + 1) (by push_cast; push_cast at h; linarith)
      have hsub : numCues dur - i = (numCues dur - (i + 1)) + 1 := by omega
      have hstop : min ((i : ℚ) / 5 + cueInterval) dur = min (((i : ℚ) + 1) / 5) dur := by
        unfold cueInterval
        congr 1
        ring
      simp only [genCuesAux, if_pos hlt, hstep, hrec, hsub, List.range_succ_eq_map,
        List.map_cons, List.map_map]
      congr 1
      · have hc : ((i + 1 : ℕ) : ℚ) / 5 = ((i : ℚ) + 1) / 5 := by
          push_cast
          ring
        simp [cueN, hc]
      · apply List.map_congr_left
        intro j _
        have hj : i + 1 + j = i + (j + 1) := by omega
        simp [Function.comp, hj]
    · have hge : dur ≤ (i : ℚ) / 5 := le_of_not_lt hlt
      have hle : (⌈(5 : ℚ) * dur⌉ : ℤ) ≤ (i : ℤ) := by
        rw [Int.ceil_le]
        push_cast
        linarith
      have : numCues dur ≤ i := by
        have := Int.toNat_le.mpr hle
        simpa [numCues] using this
      simp [genCuesAux, if_neg hlt, Nat.sub_eq_zero_of_le this]

/-- The estimated duration is at least 1 second (the clamp's lower bound and
the fixed default). -/
theorem one_le_estimateDuration (mp3 : Option Mp3Stat) (text : List Char) :
    1 ≤ (estimateDuration mp3 text).1 := by
  unfold estimateDuration
  dsimp only
  split
  · exact le_max_left 1 _
  · split
    · split
      · exact le_max_left 1 _
      · exact le_refl 1
    · exact le_refl 1

/-- The mouth cues of a fallback track, in closed form. -/
theorem fallback_mouthCues_eq (rand : Nat → Nat) (mi : Nat) (text : List Char)
    (mp3 : Option Mp3Stat) :
    (createEnhancedFallbackLipSync rand mi text mp3).mouthCues
      = (List.range (numCues (estimateDuration mp3 text).1)).map
          (cueN rand (estimateDuration mp3 text).1) := by
  unfold createEnhancedFallbackLipSync
  dsimp only
  have h0 : (0 : ℚ) = ((0 : ℕ) : ℚ) / 5 := by norm_num
  rw [h0]
  rw [genCuesAux_closedForm rand _ (cueFuel (estimateDuration mp3 text).1) 0]
  · simp
  · unfold cueFuel numCues
    have h1 : (5 : ℚ) * (estimateDuration mp3 text).1 ≤ ⌈(5 : ℚ) * (estimateDuration mp3 text).1⌉ :=
      Int.le_ceil _
    have h2 : (⌈(5 : ℚ) * (estimateDuration mp3 text).1⌉ : ℤ)
        ≤ ((⌈(5 : ℚ) * (estimateDuration mp3 text).1⌉).toNat : ℤ) := Int.self_le_toNat _
    have h3 : ((⌈(5 : ℚ) * (estimateDuration mp3 text).1⌉ : ℤ) : ℚ)
        ≤ ((⌈(5 : ℚ) * (estimateDuration mp3 text).1⌉).toNat : ℚ) := by
      exact_mod_cast h2
    push_cast
    linarith

/-- At least five cues are generated (the duration is at least 1 s and cues
advance 0.2 s at a time). -/
theorem five_le_numCues {dur : ℚ} (h : 1 ≤ dur) : 5 ≤ numCues dur := by
  unfold numCues
  have h5 : (5 : ℤ) ≤ ⌈(5 : ℚ) * dur⌉ := by
    rw [Int.le_ceil_iff]
    push_cast
    linarith
  omega

/-- Every iteration index of the cue loop satisfies `time < dur`. -/
theorem cue_time_lt_dur {dur : ℚ} {j : ℕ} (hj : j < numCues dur) : (j : ℚ) / 5 < dur := by
  unfold numCues at hj
  have h1 : ((j : ℤ)) < ⌈(5 : ℚ) * dur⌉ := Int.lt_toNat.mp hj
  have h2 : ((j : ℤ) : ℚ) < 5 * dur := by
    rw [← Int.lt_ceil]
    exact_mod_cast h1
  have : (j : ℚ) < 5 * dur := by exact_mod_cast h2
  linarith

/-- The loop exits no later than iteration `numCues dur`. -/
theorem numCues_ge (dur : ℚ) : 5 * dur ≤ (numCues dur : ℚ) := by
  unfold numCues
  have h1 : (5 : ℚ) * dur ≤ ⌈(5 : ℚ) * dur⌉ := Int.le_ceil _
  have h2 : (⌈(5 : ℚ) * dur⌉ : ℤ) ≤ ((⌈(5 : ℚ) * dur⌉).toNat : ℤ) := Int.self_le_toNat _
  have h3 : ((⌈(5 : ℚ) * dur⌉ : ℤ) : ℚ) ≤ ((⌈(5 : ℚ) * dur⌉).toNat : ℚ) := by exact_mod_cast h2
  linarith

/-- A non-final cue stops exactly at the next cue boundary `(j+1)/5`. -/
theorem cueN_stop_nonfinal (rand : Nat → Nat) {dur : ℚ} {j : ℕ}
    (hj : j + 1 < numCues dur) :
    (cueN rand dur j).stop = ((j : ℚ) + 1) / 5 := by
  unfold cueN
  dsimp only
  have hlt : ((j + 1 : ℕ) : ℚ) / 5 < dur := cue_time_lt_dur hj
  have hlt' : ((j : ℚ) + 1) / 5 < dur := by
    push_cast at hlt
    linarith
  rw [min_eq_left (le_of_lt hlt')]
  have : ((j : ℚ) + 1) / 5 = ((j + 1 : ℕ) : ℚ) / 5 := by push_cast; ring
  rw [this, jsRound2_natDiv5]

/-- Concrete run: a 32032-byte duration-hint file estimates a duration of
1.001 s via the file-size rule. -/
theorem estimateDuration_32032 :
    estimateDuration (some ⟨true, 32032⟩) [] = (1001 / 1000, DurationSource.fileSizeEstimation) := by
  unfold estimateDuration clamp115
  norm_num

/-- Concrete run: a duration of 1.001 s yields six loop iterations. -/
theorem numCues_32032 : numCues (1001 / 1000 : ℚ) = 6 := by
  unfold numCues
  have h : ⌈(5 : ℚ) * (1001 / 1000)⌉ = 6 := by
    rw [Int.ceil_eq_iff]
    constructor <;> norm_num
  rw [h]
  rfl

/-- Concrete run: the fallback track for a 32032-byte duration hint. The
sixth cue is degenerate: both its boundaries round to 1.00. -/
theorem mouthCues_32032 :
    (createEnhancedFallbackLipSync (fun _ => 0) 0 [] (some ⟨true, 32032⟩)).mouthCues
      = [⟨0, 1/5, "A".toList⟩, ⟨1/5, 2/5, "A".toList⟩, ⟨2/5, 3/5, "A".toList⟩,
         ⟨3/5, 4/5, "A".toList⟩, ⟨4/5, 1, "A".toList⟩, ⟨1, 1, "A".toList⟩] := by
  rw [fallback_mouthCues_eq]
  rw [estimateDuration_32032]
  norm_num [numCues_32032]
  have hr : List.range 6 = [0, 1, 2, 3, 4, 5] := rfl
  rw [hr]
  simp only [List.map_cons, List.map_nil]
  norm_num [cueN, jsRound2, mouthShapes]

theorem jsLower_append (u v : List Char) : jsLower (u ++ v) = jsLower u ++ jsLower v :=
  List.map_append Char.toLower u v

/-- The last four lowercased characters of `u ++ t` are `jsLower t` when `t`
has exactly four characters. -/
theorem last4_of_append (u t : List Char) (ht : t.length = 4) :
    ((jsLower (u ++ t)).reverse.take 4).reverse = jsLower t := by
  rw [jsLower_append, List.reverse_append]
  have hlen : (jsLower t).reverse.length = 4 := by simp [jsLower, ht]
  rw [← hlen, List.take_left]
  simp

theorem replaceWav_of_suffix {s u : List Char} (h : s = u ++ wavSuffix) :
    replaceWavByMp3 s = u ++ mp3Suffix := by
  unfold replaceWavByMp3
  have hcond : endsWavCI s = true := by
    unfold endsWavCI
    rw [h, last4_of_append u wavSuffix rfl]
    decide
  rw [if_pos hcond, h]
  have hlen : (u ++ wavSuffix).length - 4 = u.length := by
    simp [wavSuffix]
  rw [hlen, List.take_left]

theorem endsWavCI_append_mp3 (u : List Char) : endsWavCI (u ++ mp3Suffix) = false := by
  unfold endsWavCI
  rw [last4_of_append u mp3Suffix rfl]
  decide

theorem replaceWav_idem (s : List Char) :
    replaceWavByMp3 (replaceWavByMp3 s) = replaceWavByMp3 s := by
  by_cases h : endsWavCI s
  · have h1 : replaceWavByMp3 s = s.take (s.length - 4) ++ mp3Suffix := by
      unfold replaceWavByMp3
      rw [if_pos h]
    rw [h1]
    unfold replaceWavByMp3
    rw [if_neg (by simp [endsWavCI_append_mp3])]
  · have h1 : replaceWavByMp3 s = s := by
      unfold replaceWavByMp3
      rw [if_neg h]
    rw [h1, h1]

/-! ### Claim theorems -/

/-- C1 (amended): for every duration produced by the fallback synthesizer the
generated mouth cues partition `[0, duration]` with no gaps or overlaps: the
cue list is non-empty, the first cue starts at `0`, each cue's start equals
the previous cue's stop, every cue has `stop ≥ start` — with strict
inequality for every non-final cue; the final cue may be degenerate — and the
last cue's stop equals the track's declared (rounded) duration exactly, hence
within `1e-6`. -/
theorem fallback_cues_partition (rand : Nat → Nat) (mi : Nat) (text : List Char)
    (mp3 : Option Mp3Stat) :
    (createEnhancedFallbackLipSync rand mi text mp3).mouthCues ≠ []
    ∧ (∀ c, (createEnhancedFallbackLipSync rand mi text mp3).mouthCues.head? = some c →
        c.start = 0)
    ∧ List.Chain' (fun a b => b.start = a.stop)
        (createEnhancedFallbackLipSync rand mi text mp3).mouthCues
    ∧ (∀ c ∈ (createEnhancedFallbackLipSync rand mi text mp3).mouthCues, c.start ≤ c.stop)
    ∧ (∀ i c, (createEnhancedFallbackLipSync rand mi text mp3).mouthCues.get? i = some c →
        i + 1 < (createEnhancedFallbackLipSync rand mi text mp3).mouthCues.length →
        c.start < c.stop)
    ∧ (∀ m c, (createEnhancedFallbackLipSync rand mi text mp3).metadata = some m →
        (createEnhancedFallbackLipSync rand mi text mp3).mouthCues.getLast? = some c →
        c.stop = m.rest.duration) := by
  have hdur1 : 1 ≤ (estimateDuration mp3 text).1 := one_le_estimateDuration mp3 text
  have hn5 : 5 ≤ numCues (estimateDuration mp3 text).1 := five_le_numCues hdur1
  have hcues := fallback_mouthCues_eq rand mi text mp3
  refine ⟨?_, ?_, ?_, ?_, ?_, ?_⟩
  · rw [hcues]
    simp only [ne_eq, List.map_eq_nil, List.range_eq_nil]
    omega
  · intro c hc
    rw [hcues] at hc
    obtain ⟨k, hk⟩ : ∃ k, numCues (estimateDuration mp3 text).1 = k + 1 :=
      ⟨numCues (estimateDuration mp3 text).1 - 1, by omega⟩
    rw [hk, List.range_succ_eq_map, List.map_cons, List.head?_cons] at hc
    obtain rfl : c = cueN rand (estimateDuration mp3 text).1 0 := by
      injection hc with h
      exact h.symm
    show jsRound2 ((0 : ℕ) / 5 : ℚ) = 0
    rw [jsRound2_natDiv5]
    norm_num
  · rw [hcues, List.chain'_iff_get]
    intro i hi
    simp only [List.get_map, List.get_range]
    have hi' : i + 1 < numCues (estimateDuration mp3 text).1 := by
      simp only [List.length_map, List.length_range] at hi
      omega
    rw [cueN_stop_nonfinal rand hi']
    show jsRound2 (((i + 1 : ℕ) : ℚ) / 5) = _
    rw [jsRound2_natDiv5]
    push_cast
    ring
  · intro c hc
    rw [hcues] at hc
    obtain ⟨j, hj, rfl⟩ : ∃ j, j < numCues (estimateDuration mp3 text).1
        ∧ cueN rand (estimateDuration mp3 text).1 j = c := by
      obtain ⟨j, hj, rfl⟩ := List.mem_map.mp hc
      exact ⟨j, List.mem_range.mp hj, rfl⟩
    unfold cueN
    dsimp only
    apply jsRound2_mono
    apply le_min
    · exact (div_le_div_right (by norm_num : (0 : ℚ) < 5)).mpr (by linarith)
    · exact le_of_lt (cue_time_lt_dur hj)
  · intro i c hc hlen
    rw [hcues] at hc hlen
    simp only [List.length_map, List.length_range] at hlen
    rw [List.get?_map, List.get?_range (by omega : i < numCues (estimateDuration mp3 text).1)]
      at hc
    obtain rfl : c = cueN rand (estimateDuration mp3 text).1 i := by
      injection hc with h
      exact h.symm
    rw [cueN_stop_nonfinal rand hlen]
    show jsRound2 ((i : ℚ) / 5) < _
    rw [jsRound2_natDiv5]
    exact (div_lt_div_right (by norm_num : (0 : ℚ) < 5)).mpr (by linarith)
  · intro m c hm hc
    have hmeta : (createEnhancedFallbackLipSync rand mi text mp3).metadata
        = some { soundFile := some (messageSoundFile mi),
                 rest := { duration := jsRound2 (estimateDuration mp3 text).1,
                           isFallback := true,
                           durationSource := (estimateDuration mp3 text).2.name,
                           textLength := text.length } } := rfl
    rw [hmeta] at hm
    obtain rfl : m = _ := by
      injection hm with h
      exact h.symm
    rw [hcues] at hc
    have hlen : ((List.range (numCues (estimateDuration mp3 text).1)).map
        (cueN rand (estimateDuration mp3 text).1)).length
          = numCues (estimateDuration mp3 text).1 := by
      simp
    rw [List.getLast?_eq_get?, hlen] at hc
    rw [List.get?_map, List.get?_range (by omega)] at hc
    obtain rfl : c = cueN rand (estimateDuration mp3 text).1
        (numCues (estimateDuration mp3 text).1 - 1) := by
      injection hc with h
      exact h.symm
    unfold cueN
    dsimp only
    have hge := numCues_ge (estimateDuration mp3 text).1
    have hcast : ((numCues (estimateDuration mp3 text).1 - 1 : ℕ) : ℚ) + 1
        = (numCues (estimateDuration mp3 text).1 : ℚ) := by
      have h1 : 1 ≤ numCues (estimateDuration mp3 text).1 := by omega
      push_cast [h1]
      ring
    rw [hcast, min_eq_right (by linarith)]

/-- C1 counterexample: with a 32032-byte duration-hint file the estimated
duration is 1.001 s, and the final generated cue runs from 1.00 to 1.00 —
its `end` is not strictly greater than its `start`, refuting the claim as
stated at this input. -/
theorem fallback_cues_strict_counterexample :
    ¬ (∀ c ∈ (createEnhancedFallbackLipSync (fun _ => 0) 0 [] (some ⟨true, 32032⟩)).mouthCues,
        c.start < c.stop) := by
  rw [mouthCues_32032]
  intro h
  have hmem : (⟨1, 1, "A".toList⟩ : MouthCue)
      ∈ [(⟨0, 1/5, "A".toList⟩ : MouthCue), ⟨1/5, 2/5, "A".toList⟩, ⟨2/5, 3/5, "A".toList⟩,
         ⟨3/5, 4/5, "A".toList⟩, ⟨4/5, 1, "A".toList⟩, ⟨1, 1, "A".toList⟩] := by
    simp
  have := h _ hmem
  exact absurd this (lt_irrefl _)

/-- C1 witness: the partition theorem applied to the concrete 32032-byte
input — the first cue of that track starts at 0. -/
theorem fallback_cues_partition_witness :
    ((createEnhancedFallbackLipSync (fun _ => 0) 0 [] (some ⟨true, 32032⟩)).mouthCues.head?
        = some ⟨0, 1/5, "A".toList⟩)
    ∧ (⟨0, 1/5, "A".toList⟩ : MouthCue).start = 0 := by
  have h1 : (createEnhancedFallbackLipSync (fun _ => 0) 0 [] (some ⟨true, 32032⟩)).mouthCues.head?
      = some ⟨0, 1/5, "A".toList⟩ := by
    rw [mouthCues_32032]
    rfl
  exact ⟨h1, (fallback_cues_partition (fun _ => 0) 0 [] (some ⟨true, 32032⟩)).2.1 _ h1⟩

/-- C4: a lip-sync track whose `metadata.soundFile` ends in the
uncompressed-audio extension `.wav` normalizes to one whose `soundFile` ends
in the compressed-audio extension `.mp3`, and normalization is idempotent. -/
theorem normalize_wav_roundtrip_idempotent :
    (∀ (d : Option LipsyncData) (t : LipsyncData) (m : LipsyncMetadata) (s : List Char),
        d = some t → t.metadata = some m → m.soundFile = some s → wavSuffix <:+ s →
        ∃ (t2 : LipsyncData) (m2 : LipsyncMetadata) (s2 : List Char),
          normalizeLipsyncMetadata d = some t2 ∧ t2.metadata = some m2
            ∧ m2.soundFile = some s2 ∧ mp3Suffix <:+ s2)
    ∧ ∀ d, normalizeLipsyncMetadata (normalizeLipsyncMetadata d) = normalizeLipsyncMetadata d := by
  constructor
  · rintro d t m s rfl hm hs ⟨u, rfl⟩
    refine ⟨{ t with metadata := some { m with soundFile := m.soundFile.map replaceWavByMp3 } },
      { m with soundFile := m.soundFile.map replaceWavByMp3 },
      replaceWavByMp3 (u ++ wavSuffix), ?_, rfl, ?_, ?_⟩
    · simp [normalizeLipsyncMetadata, hm]
    · rw [hs]
      rfl
    · rw [replaceWav_of_suffix rfl]
      exact ⟨u, rfl⟩
  · intro d
    match d with
    | none => rfl
    | some t =>
      match ht : t.metadata with
      | none => simp [normalizeLipsyncMetadata, ht]
      | some m =>
        match hs : m.soundFile with
        | none => simp [normalizeLipsyncMetadata, ht, hs]
        | some s => simp [normalizeLipsyncMetadata, ht, hs, replaceWav_idem]

/-- C4 witness: the track whose `soundFile` is `"voice.wav"` normalizes to
one whose `soundFile` ends in `".mp3"`. -/
theorem normalize_wav_roundtrip_witness :
    wavSuffix <:+ "voice.wav".toList
    ∧ ∃ (t2 : LipsyncData) (m2 : LipsyncMetadata) (s2 : List Char),
        normalizeLipsyncMetadata
            (some { metadata := some { soundFile := some "voice.wav".toList,
                                       rest := { duration := 1, isFallback := false,
                                                 durationSource := [], textLength := 0 } },
                    mouthCues := [] })
          = some t2 ∧ t2.metadata = some m2 ∧ m2.soundFile = some s2 ∧ mp3Suffix <:+ s2 :=
  ⟨by decide,
    normalize_wav_roundtrip_idempotent.1 _ _ _ "voice.wav".toList rfl rfl rfl (by decide)⟩

/-- C10: normalization changes at most `metadata.soundFile` (rewriting a
trailing `.wav`), leaving `mouthCues` and all other metadata fields
untouched; `null` input and input without metadata pass through unchanged. -/
theorem normalize_frame_effect (t : LipsyncData) (m : LipsyncMetadata) :
    normalizeLipsyncMetadata none = none
    ∧ (t.metadata = none → normalizeLipsyncMetadata (some t) = some t)
    ∧ (t.metadata = some m →
        normalizeLipsyncMetadata (some t)
          = some { t with
              metadata := some { m with soundFile := m.soundFile.map replaceWavByMp3 } }) := by
  refine ⟨rfl, ?_, ?_⟩
  · intro h
    simp [normalizeLipsyncMetadata, h]
  · intro h
    simp [normalizeLipsyncMetadata, h]

/-- C10 witness: the frame theorem applied to a concrete track with
metadata — only `soundFile` is rewritten. -/
theorem normalize_frame_effect_witness :
    (({ metadata := some { soundFile := some "a.wav".toList,
                           rest := { duration := 7, isFallback := true,
                                     durationSource := "x".toList, textLength := 3 } },
        mouthCues := [⟨0, 7, "A".toList⟩] } : LipsyncData).metadata
      = some { soundFile := some "a.wav".toList,
               rest := { duration := 7, isFallback := true,
                         durationSource := "x".toList, textLength := 3 } })
    ∧ normalizeLipsyncMetadata
        (some { metadata := some { soundFile := some "a.wav".toList,
                                   rest := { duration := 7, isFallback := true,
                                             durationSource := "x".toList, textLength := 3 } },
                mouthCues := [⟨0, 7, "A".toList⟩] })
      = some { metadata := some { soundFile := (some "a.wav".toList).map replaceWavByMp3,
                                  rest := { duration := 7, isFallback := true,
                                            durationSource := "x".toList, textLength := 3 } },
               mouthCues := [⟨0, 7, "A".toList⟩] } :=
  ⟨rfl, (normalize_frame_effect _ _).2.2 rfl⟩

/-- C3: duration estimation precedence — a present, non-empty hint file gives
`clamp(size/32000, 1, 15)` with the file-size source; otherwise non-empty
text gives `clamp(wordCount/2.5, 1, 15)` (150 words per minute) with the
word-count source; otherwise the fixed default of 1 s. -/
theorem estimateDuration_precedence (mp3 : Option Mp3Stat) (text : List Char) :
    (∀ st, mp3 = some st → st.present = true → 0 < st.size →
        estimateDuration mp3 text
          = (max 1 (min 15 ((st.size : ℚ) / 32000)), .fileSizeEstimation))
    ∧ ((mp3 = none ∨ ∃ st, mp3 = some st ∧ (st.present = false ∨ st.size = 0)) →
        text ≠ [] →
        estimateDuration mp3 text
          = (max 1 (min 15 ((jsWordCount text : ℚ) / (5 / 2))), .textLengthEstimation))
    ∧ ((mp3 = none ∨ ∃ st, mp3 = some st ∧ (st.present = false ∨ st.size = 0)) →
        text = [] → estimateDuration mp3 text = (1, .default)) := by
  refine ⟨?_, ?_, ?_⟩
  · rintro st rfl hp hsz
    unfold estimateDuration clamp115
    simp [hp, hsz]
  · rintro (rfl | ⟨st, rfl, hst⟩) htext
    · unfold estimateDuration clamp115
      have hlen : 0 < text.length := List.length_pos.mpr htext
      simp [hlen]
      norm_num
    · unfold estimateDuration clamp115
      have hlen : 0 < text.length := List.length_pos.mpr htext
      have hcond : ¬ (st.present = true ∧ 0 < st.size) := by
        rcases hst with h | h
        · simp [h]
        · simp [h]
      simp [hcond, hlen]
      norm_num
  · rintro (rfl | ⟨st, rfl, hst⟩) rfl
    · rfl
    · unfold estimateDuration
      have hcond : ¬ (st.present = true ∧ 0 < st.size) := by
        rcases hst with h | h
        · simp [h]
        · simp [h]
      simp [hcond]

/-- C3 witness: the precedence theorem applied at concrete inputs for each of
the three sources. -/
theorem estimateDuration_precedence_witness :
    estimateDuration (some ⟨true, 48000⟩) "x".toList
        = (max 1 (min 15 ((48000 : ℚ) / 32000)), .fileSizeEstimation)
    ∧ estimateDuration none "hello world".toList
        = (max 1 (min 15 ((jsWordCount "hello world".toList : ℚ) / (5 / 2))),
           .textLengthEstimation)
    ∧ estimateDuration none [] = (1, .default) :=
  ⟨(estimateDuration_precedence (some ⟨true, 48000⟩) "x".toList).1 ⟨true, 48000⟩ rfl rfl
      (by decide),
   (estimateDuration_precedence none "hello world".toList).2.1 (Or.inl rfl) (by decide),
   (estimateDuration_precedence none []).2.2 (Or.inl rfl) rfl⟩

/-- C8: every file smaller than 128 bytes is reported invalid by the MP3
format validator, whatever its header or content. -/
theorem validateMp3_small_false (f : AudioFile) (h : f.statSize < 128) :
    validateMp3FileForProcessing f = false := by
  unfold validateMp3FileForProcessing
  split_ifs <;> rfl

/-- C8 witness: a 100-byte file carrying a perfectly good ID3 header is still
rejected. -/
theorem validateMp3_small_false_witness :
    (100 < 128)
    ∧ validateMp3FileForProcessing
        ⟨true, true, 100, [0x49, 0x44, 0x33] ++ List.replicate 97 0, true, 100⟩ = false :=
  ⟨by decide, validateMp3_small_false _ (by decide)⟩

/-- C2 counterexample: a 200-byte file whose first bytes are the ID3 tag
signature is reported invalid (the 1024-byte minimum-audio-content check
fires after the header check), refuting the claim that any ID3-headed input
validates. -/
theorem validateMp3_id3_counterexample :
    validateMp3FileForProcessing
      ⟨true, true, 200, [0x49, 0x44, 0x33] ++ List.replicate 197 0, true, 200⟩ = false := by
  decide

/-- C2 (amended): a readable file of at least 1024 bytes whose first three
bytes are `0x49 0x44 0x33` is reported valid by the MP3 format validator. -/
theorem validateMp3_id3_valid (f : AudioFile)
    (hp : f.present = true) (hr : f.readable = true)
    (hs : f.statSize = f.content.length) (h1024 : 1024 ≤ f.statSize)
    (hpre : [0x49, 0x44, 0x33] <+: f.content) :
    validateMp3FileForProcessing f = true := by
  obtain ⟨pres, rd, S, content, rs, rz⟩ := f
  simp only at hp hr hs h1024 hpre
  subst hp hr hs
  obtain ⟨rest, rfl⟩ := hpre
  have hlen : ([0x49, 0x44, 0x33] ++ rest).length = rest.length + 3 := by
    simp
  rw [hlen] at h1024
  simp only [validateMp3FileForProcessing, hlen]
  rw [if_neg (by simp), if_neg (by simp), if_neg (by omega), if_neg (by omega)]
  obtain ⟨k, hk⟩ : ∃ k, 4096 ⊓ (rest.length + 3) = k + 3 :=
    ⟨4096 ⊓ (rest.length + 3) - 3, by omega⟩
  rw [hk]
  have hcons : ([0x49, 0x44, 0x33] ++ rest) = 0x49 :: 0x44 :: 0x33 :: rest := rfl
  rw [hcons]
  simp only [List.take_succ_cons, List.length_cons, List.length_take]
  rw [if_neg (by omega)]
  obtain ⟨j, hj⟩ : ∃ j, 4 ⊓ (k ⊓ rest.length + 1 + 1 + 1) = j + 3 :=
    ⟨4 ⊓ (k ⊓ rest.length + 1 + 1 + 1) - 3, by omega⟩
  rw [hj]
  simp only [List.take_succ_cons, List.getD_cons_zero, List.getD_cons_succ]
  rw [if_neg (fun hcon => hcon (Or.inl (by
    simp only [decide_eq_true_eq]
    exact ⟨by omega, trivial, trivial, trivial⟩)))]
  rw [if_neg (by omega)]

/-- C2 witness: a 1024-byte ID3-headed file validates. -/
theorem validateMp3_id3_valid_witness :
    validateMp3FileForProcessing
      ⟨true, true, 1024, [0x49, 0x44, 0x33] ++ List.replicate 1021 0, true, 1024⟩ = true :=
  validateMp3_id3_valid _ rfl rfl (by simp) (by simp) ⟨List.replicate 1021 0, rfl⟩

theorem base64Chars_ne_nil : ∀ {l : List Nat}, l ≠ [] → base64Chars l ≠ [] := by
  intro l h
  match l with
  | [a] => simp [base64Chars]
  | [a, b] => simp [base64Chars]
  | a :: b :: c :: rest => simp [base64Chars]

/-- C6: the base64 encoder is a total function into strings: every failure
branch (missing, unreadable, empty, invalid MP3, not ready, empty read,
empty encoding — and the surrounding catch-all) yields the empty string, and
on the success path the encoder returns the base64 encoding of the bytes it
read even when their count disagrees with the last observed stat sizes (the
mismatch is only logged). -/
theorem audioFileToBase64_contract (isMp3Path : Bool) (f : AudioFile) :
    (audioFileToBase64 isMp3Path f = []
      ∨ audioFileToBase64 isMp3Path f = base64Chars f.content)
    ∧ (f.present = true → f.readable = true → f.statSize ≠ 0 →
        (isMp3Path = true → validateMp3FileForProcessing f = true) →
        f.readySuccess = true → f.content ≠ [] →
        f.content.length ≠ f.statSize → f.content.length ≠ f.readySize →
        audioFileToBase64 isMp3Path f = base64Chars f.content
          ∧ audioFileToBase64 isMp3Path f ≠ []) := by
  constructor
  · unfold audioFileToBase64
    split_ifs <;> try exact Or.inl rfl
    all_goals
      show (if f.content.length = 0 then ([] : List Char)
          else if (base64Chars f.content).length = 0 then [] else base64Chars f.content) = []
        ∨ (if f.content.length = 0 then ([] : List Char)
          else if (base64Chars f.content).length = 0 then [] else base64Chars f.content)
            = base64Chars f.content
    all_goals split_ifs
    all_goals first | exact Or.inl rfl | exact Or.inr rfl
  · intro hp hr hs hmp3 hready hdata _ _
    have hvalid : ¬ (isMp3Path = true ∧ ¬ validateMp3FileForProcessing f = true) := by
      rintro ⟨h1, h2⟩
      exact h2 (hmp3 h1)
    have hlen : ¬ f.content.length = 0 := by
      simpa [List.length_eq_zero] using hdata
    have hb64 : ¬ (base64Chars f.content).length = 0 := by
      simpa [List.length_eq_zero] using base64Chars_ne_nil hdata
    have hmain : audioFileToBase64 isMp3Path f = base64Chars f.content := by
      unfold audioFileToBase64
      rw [if_neg (by simp [hp]), if_neg (by simp [hr]), if_neg hs, if_neg hvalid,
        if_neg (by simp [hready])]
      show (if f.content.length = 0 then ([] : List Char)
          else if (base64Chars f.content).length = 0 then [] else base64Chars f.content)
            = base64Chars f.content
      rw [if_neg hlen, if_neg hb64]
    exact ⟨hmain, hmain ▸ base64Chars_ne_nil hdata⟩

/-- C6 witness: a three-byte file whose read size disagrees with both
observed stat sizes still encodes to (non-empty) base64. -/
theorem audioFileToBase64_contract_witness :
    ([1, 2, 3] : List Nat).length ≠ 5
    ∧ ([1, 2, 3] : List Nat).length ≠ 7
    ∧ audioFileToBase64 false ⟨true, true, 5, [1, 2, 3], true, 7⟩
        = base64Chars [1, 2, 3]
    ∧ audioFileToBase64 false ⟨true, true, 5, [1, 2, 3], true, 7⟩ ≠ [] := by
  have h := (audioFileToBase64_contract false ⟨true, true, 5, [1, 2, 3], true, 7⟩).2
    rfl rfl (by decide) (by decide) rfl (by decide) (by decide) (by decide)
  exact ⟨by decide, by decide, h.1, h.2⟩

/-- C9: every error classified `SERVER_ERROR` carries `retryable: true` on
the classified object, and the ErrorRecord the error handler builds from it
records `retryable = true` as well (`error.retryable || isRetryableError`). -/
theorem serverError_recorded_retryable (msg : Option (List Char))
    (h : (handleElevenLabsError msg).errorCode = ErrCode.SERVER_ERROR) :
    (handleElevenLabsError msg).retryable = true
      ∧ errorRecordRetryable (handleElevenLabsError msg) = true := by
  match msg with
  | none => simp [handleElevenLabsError] at h
  | some m =>
    simp only [handleElevenLabsError] at h ⊢
    split_ifs at h ⊢ <;> simp_all [errorRecordRetryable, isRetryableError]

/-- C9 witness: a `"status 503"` collaborator message classifies as
`SERVER_ERROR` and is recorded retryable. -/
theorem serverError_recorded_retryable_witness :
    (handleElevenLabsError (some "status 503".toList)).errorCode = ErrCode.SERVER_ERROR
    ∧ (handleElevenLabsError (some "status 503".toList)).retryable = true
    ∧ errorRecordRetryable (handleElevenLabsError (some "status 503".toList)) = true := by
  have h : (handleElevenLabsError (some "status 503".toList)).errorCode
      = ErrCode.SERVER_ERROR := by decide
  have h2 := serverError_recorded_retryable (some "status 503".toList) h
  exact ⟨h, h2.1, h2.2⟩

/-- C5 counterexample: with credentials configured, a 5001-character
whitespace-only text is rejected as `EMPTY_TEXT`, not `TEXT_TOO_LONG`,
refuting the claim for that over-long input. -/
theorem generateAudio_toolong_counterexample :
    5000 < (List.replicate 5001 ' ').length
    ∧ (generateAudio ⟨"k".toList, "v".toList, true, none, some 5⟩
        (List.replicate 5001 ' ')).1.errorCode ≠ some ErrCode.TEXT_TOO_LONG := by
  constructor
  · rw [List.length_replicate]
    norm_num
  · have htrim : jsTrim (List.replicate 5001 ' ') = [] := by
      have hdrop : (List.replicate 5001 ' ').dropWhile isJsWs = [] := by
        rw [List.dropWhile_replicate]
        rw [if_pos (by decide)]
      unfold jsTrim
      rw [hdrop]
      rfl
    unfold generateAudio
    rw [if_neg (by decide), if_neg (by decide), if_pos (by rw [htrim]; rfl)]
    decide

/-- C5 (amended): with API key and voice id configured and a text that is
not entirely whitespace, any text longer than 5000 characters makes
`generateAudio` fail with `TEXT_TOO_LONG` without invoking the
text-to-speech collaborator. -/
theorem generateAudio_toolong (env : TtsEnv) (text : List Char)
    (hk : env.apiKey ≠ []) (hv : env.voiceId ≠ [])
    (ht : jsTrim text ≠ []) (hlen : 5000 < text.length) :
    (generateAudio env text).1 = ⟨false, some ErrCode.TEXT_TOO_LONG⟩
    ∧ (generateAudio env text).2 = false := by
  have hk' : ¬ env.apiKey.length = 0 := by simpa [List.length_eq_zero] using hk
  have hv' : ¬ env.voiceId.length = 0 := by simpa [List.length_eq_zero] using hv
  have ht' : ¬ (jsTrim text).length = 0 := by simpa [List.length_eq_zero] using ht
  unfold generateAudio
  rw [if_neg hk', if_neg hv', if_neg ht', if_pos hlen]
  exact ⟨rfl, rfl⟩

/-- C5 witness: a 5001-character non-whitespace text is rejected as
`TEXT_TOO_LONG` with no collaborator call. -/
theorem generateAudio_toolong_witness :
    5000 < (List.replicate 5001 'a').length
    ∧ (generateAudio ⟨"k".toList, "v".toList, true, none, some 5⟩
        (List.replicate 5001 'a')).1 = ⟨false, some ErrCode.TEXT_TOO_LONG⟩
    ∧ (generateAudio ⟨"k".toList, "v".toList, true, none, some 5⟩
        (List.replicate 5001 'a')).2 = false := by
  have hlen : 5000 < (List.replicate 5001 'a').length := by
    rw [List.length_replicate]
    norm_num
  have hdrop : (List.replicate 5001 'a').dropWhile isJsWs = List.replicate 5001 'a' := by
    rw [List.dropWhile_replicate]
    rw [if_neg (by decide)]
  have ht : jsTrim (List.replicate 5001 'a') ≠ [] := by
    unfold jsTrim
    rw [hdrop, List.reverse_replicate, hdrop, List.reverse_replicate]
    intro hcon
    have hlen0 : (List.replicate 5001 'a').length = 0 := by
      rw [hcon]
      rfl
    rw [List.length_replicate] at hlen0
    omega
  have h := generateAudio_toolong ⟨"k".toList, "v".toList, true, none, some 5⟩
    (List.replicate 5001 'a') (by decide) (by decide) ht hlen
  exact ⟨hlen, h.1, h.2⟩

theorem positiveSizes_none_cons (polls : List (Option Nat)) :
    positiveSizes (none :: polls) = positiveSizes polls := by
  simp [positiveSizes]

theorem positiveSizes_some_cons (s : Nat) (polls : List (Option Nat)) :
    positiveSizes (some s :: polls)
      = if 0 < s then s :: positiveSizes polls else positiveSizes polls := by
  by_cases h : 0 < s <;> simp [positiveSizes, h]

theorem hasStableRun_cons (a : Nat) (l : List Nat) :
    hasStableRun (a :: l) = true ↔
      (List.replicate 3 a <+: l ∨ hasStableRun l = true) := by
  match l with
  | [] => simp [hasStableRun, List.replicate]
  | [b] => simp [hasStableRun, List.replicate]
  | [b, c] => simp [hasStableRun, List.replicate]
  | b :: c :: d :: t =>
    show (if a = b ∧ a = c ∧ a = d then true else hasStableRun (b :: c :: d :: t)) = true ↔ _
    have hrepl : List.replicate 3 a = [a, a, a] := rfl
    by_cases h : a = b ∧ a = c ∧ a = d
    · obtain ⟨rfl, rfl, rfl⟩ := h
      simp [hrepl]
    · rw [if_neg h, hrepl]
      constructor
      · intro hr
        exact Or.inr hr
      · rintro (hp | hr)
        · exact absurd (by
            rcases hp with ⟨t2, ht2⟩
            injection ht2 with h1 h2
            injection h2 with h3 h4
            injection h4 with h5 h6
            exact ⟨h1, h3, h5⟩) h
        · exact hr


theorem waitStep_iff (polls : List (Option Nat)) :
    ∀ (ls st : Nat), st ≤ 2 →
      (waitStep polls ls st = true ↔
        (List.replicate (3 - st) ls <+: positiveSizes polls
          ∨ hasStableRun (positiveSizes polls) = true)) := by
  induction polls with
  | nil =>
    intro ls st hst
    have h1 : positiveSizes [] = [] := rfl
    rw [h1]
    simp [waitStep, hasStableRun, List.prefix_nil, List.replicate_eq_nil_iff]
    omega
  | cons p rest ih =>
    intro ls st hst
    match p with
    | none =>
      rw [positiveSizes_none_cons]
      show waitStep rest ls st = true ↔ _
      exact ih ls st hst
    | some s =>
      rw [positiveSizes_some_cons]
      by_cases hs : 0 < s
      · rw [if_pos hs]
        show (if 0 < s then
            if s = ls then (if 3 ≤ st + 1 then true else waitStep rest ls (st + 1))
            else waitStep rest s 0
          else waitStep rest ls st) = true ↔ _
        rw [if_pos hs]
        by_cases heq : s = ls
        · subst heq
          rw [if_pos rfl]
          by_cases h3 : 3 ≤ st + 1
          · rw [if_pos h3]
            have hst2 : st = 2 := by omega
            subst hst2
            simp only [true_iff]
            left
            show List.replicate 1 s <+: s :: positiveSizes rest
            simp [List.replicate]
          · rw [if_neg h3]
            have hst' : st + 1 ≤ 2 := by omega
            rw [ih s (st + 1) hst']
            have hrw : (3 : Nat) - st = (2 - st) + 1 := by omega
            have hrw2 : (3 : Nat) - (st + 1) = 2 - st := by omega
            rw [hrw, hrw2, List.replicate_succ, List.cons_prefix_cons]
            rw [hasStableRun_cons]
            have hBA : List.replicate 3 s <+: positiveSizes rest →
                List.replicate (2 - st) s <+: positiveSizes rest := by
              intro hb
              apply List.IsPrefix.trans _ hb
              exact ⟨List.replicate (3 - (2 - st)) s, by
                rw [← List.replicate_add]
                congr 1
                omega⟩
            constructor
            · rintro (ha | hr)
              · exact Or.inl ⟨rfl, ha⟩
              · exact Or.inr (Or.inr hr)
            · rintro (⟨-, ha⟩ | hb | hr)
              · exact Or.inl ha
              · exact Or.inl (hBA hb)
              · exact Or.inr hr
        · rw [if_neg heq]
          rw [ih s 0 (by omega)]
          rw [hasStableRun_cons]
          have hnopre : ¬ (List.replicate (3 - st) ls <+: s :: positiveSizes rest) := by
            have hrw : (3 : Nat) - st = (2 - st) + 1 := by omega
            rw [hrw, List.replicate_succ, List.cons_prefix_cons]
            rintro ⟨hls, -⟩
            exact heq hls.symm
          constructor
          · rintro (hb | hr)
            · exact Or.inr (Or.inl hb)
            · exact Or.inr (Or.inr hr)
          · rintro (hp | hb | hr)
            · exact absurd hp hnopre
            · exact Or.inl hb
            · exact Or.inr hr
      · rw [if_neg hs]
        show (if 0 < s then
            if s = ls then (if 3 ≤ st + 1 then true else waitStep rest ls (st + 1))
            else waitStep rest s 0
          else waitStep rest ls st) = true ↔ _
        rw [if_neg hs]
        exact ih ls st hst

/-- C7: `waitForFileReady` returns true exactly when the sequence of
successful non-zero size observations made before the deadline contains a
size that, after first being observed, remains unchanged across the next
three polls (stat failures and empty-file polls leave the stability counter
untouched in the source, so they do not interrupt a run); otherwise — the
file never appears, stays empty, or never stabilizes before the deadline —
it returns false. The embedding is a pure function of the observations: the
loop performs no writes. -/
theorem waitForFileReady_iff_stableRun (polls : List (Option Nat)) :
    waitForFileReady polls = hasStableRun (positiveSizes polls) := by
  have h := waitStep_iff polls 0 0 (by omega)
  have hpre : ¬ (List.replicate (3 - 0) 0 <+: positiveSizes polls) := by
    rintro ⟨t2, ht2⟩
    have h0 : (0 : Nat) ∈ positiveSizes polls := by
      rw [← ht2]
      simp [List.replicate]
    have hmem : ∀ x ∈ positiveSizes polls, 0 < x := by
      intro x hx
      unfold positiveSizes at hx
      have := List.mem_filter.mp hx
      simpa using this.2
    exact absurd (hmem 0 h0) (by omega)
  unfold waitForFileReady
  by_cases hr : hasStableRun (positiveSizes polls) = true
  · rw [hr]
    exact h.mpr (Or.inr hr)
  · have h1 : waitStep polls 0 0 = false := by
      cases hwt : waitStep polls 0 0
      · rfl
      · exact absurd (h.mp hwt) (by rintro (hp | hrr); exacts [hpre hp, hr hrr])
    have h2 : hasStableRun (positiveSizes polls) = false := by
      cases hh : hasStableRun (positiveSizes polls)
      · rfl
      · exact absurd hh hr
    rw [h1, h2]

end VGB

